import Mathlib

/-!
# Verification of the WMATA-Pass-Analysis fare engine

Shallow embedding of the ride-reconstruction and fare-calculation engine of
`WMATA-Pass-Analysis` (`src/lib/calculator.ts`, in its two variants present in
the repository).  TypeScript numbers on the fare/money path are exact decimals
here modelled as `ℚ`; timestamps (JS `Date`) are modelled by the structure
`JSDate` carrying exactly the observations the engine makes (`getDay`,
`getHours`, `getMinutes`, `getTime`).  External facilities that are not part of
the repository's code (the `fast-fuzzy` `search` function, the JSON reference
tables, the JS `Date` parser) are passed in as an explicit environment `Env`,
as the spec's §9 prescribes for testability.
-/

/-- Observations the engine makes of a JS `Date`: day of week (0 = Sunday),
hours, minutes, and epoch milliseconds (`getTime`). -/
structure JSDate where
  getDay : Nat
  getHours : Nat
  getMinutes : Nat
  getTime : ℚ
deriving DecidableEq

/-- One value of the fare table: peak and off-peak fares for a station pair. -/
structure FareEntry where
  PeakTime : ℚ
  OffPeakTime : ℚ
deriving DecidableEq

/-- The engine's external dependencies: the two reference tables
(`station_codes.json` as an association list preserving key order,
`gate_station.json`), the injectable fuzzy `search` (from the `fast-fuzzy`
package, returning its ranked matches), the fare table (`rail_fares.json`,
keyed `"<entry>-<exit>"`), and the JS `Date` parser. -/
structure Env where
  stations : List (String × String)
  gateStationMapping : String → Option String
  search : String → List String → List String
  fares : String → Option FareEntry
  newDate : String → JSDate

/-- A tap record: one parsed CSV row, as the association list built by
`parseCSV` (header → cell). -/
abbrev Record := List (String × String)

/-- JS `obj[key]` where a missing key behaves as the empty string (every use
in the engine compares the result with a non-empty literal or feeds it to a
string-consuming helper, so `undefined` and `""` are indistinguishable). -/
def getField (row : Record) (key : String) : String :=
  (row.lookup key).getD ""

/-- `parseCSV` from `calculator.ts`: split the trimmed text into lines, read
the header row, and turn every further line into a record pairing each header
with the corresponding trimmed cell (missing trailing cells become `""`). -/
def parseCSV (csv : String) : List Record :=
  let lines := csv.trim.splitOn "\n"
  match lines with
  | [] => []
  | header :: rest =>
    let headers := (header.splitOn ",").map String.trim
    rest.map (fun line =>
      let values := (line.splitOn ",").map String.trim
      headers.enum.map (fun hi => (hi.2, values.getD hi.1 "")))

/-- `fuzzyMatchStation` from `src/unnamed/part_000`: empty input yields `""`;
a truthy gate-alias hit short-circuits to a direct station-table lookup;
otherwise the injected fuzzy `search` runs over all canonical names and the
best match's code is returned (`""` when nothing matched). -/
def fuzzyMatchStation (env : Env) (stationName : String) : String :=
  if stationName = "" then ""
  else
    -- JS truthiness: an absent alias and an alias mapped to "" both fall
    -- through to the fuzzy search.
    let gateVal := (env.gateStationMapping stationName).getD ""
    if gateVal ≠ "" then (env.stations.lookup gateVal).getD ""
    else
      let stationNames := env.stations.map Prod.fst
      match env.search stationName stationNames with
      | best :: _ => (env.stations.lookup best).getD ""
      | [] => ""

/-- `isPeak` from `src/unnamed/part_000`: Monday–Friday, and either
5:00 ≤ clock < 21:00, or 21:00 ≤ clock < 21:30. -/
def isPeak (env : Env) (time : String) : Bool :=
  let d := env.newDate time
  let weekday := d.getDay
  let hour := d.getHours
  let minute := d.getMinutes
  if 1 ≤ weekday ∧ weekday ≤ 5 then
    if (5 ≤ hour ∧ hour < 21) ∨ (hour = 21 ∧ minute < 30) then true
    else false
  else false

namespace Lib

/-- `isPeak` from `src/src/lib/calculator.ts`: same weekday guard, but the
hour test is the disjunction `hour >= 5 || hour < 21 || (hour === 21 &&
minute < 30)` found in that file. -/
def isPeak (env : Env) (time : String) : Bool :=
  let d := env.newDate time
  let weekday := d.getDay
  let hour := d.getHours
  let minute := d.getMinutes
  if 1 ≤ weekday ∧ weekday ≤ 5 then
    if 5 ≤ hour ∨ hour < 21 ∨ (hour = 21 ∧ minute < 30) then true
    else false
  else false

end Lib

/-- A reconstructed ride (`interface Ride`). Times are epoch milliseconds;
`none` models an absent (`undefined`) field. -/
structure Ride where
  peak : Bool
  type : String
  entry_location : String
  entry_time : Option ℚ
  exit_location : String
  exit_time : Option ℚ
  regular_cost : ℚ
deriving DecidableEq

/-- `getFare`: look up `"<entry>-<exit>"` in the fare table; a missing key
fares at zero, otherwise pick the peak or off-peak amount. -/
def getFare (env : Env) (entry : String) (exit : String) (peak : Bool) : ℚ :=
  let fareKey := entry ++ "-" ++ exit
  match env.fares fareKey with
  | none => 0
  | some fare => if peak then fare.PeakTime else fare.OffPeakTime

/-- `isFarragutStation`: the two designated interchange codes. -/
def isFarragutStation (station : String) : Bool :=
  let farragutCodes := ["A02", "C03"]
  farragutCodes.contains station

/-- Body of the first loop of `createRides` (`src/unnamed/part_000`) for the
row at index `i`: a `Metrobus` tap yields a flat-fare standalone ride; a
`Metrorail` `Exit` tap yields a rail ride whose entry reference is the next
row when that row is an `Entry`, and the exit row itself otherwise; any other
row yields nothing. -/
def rideOfRow (env : Env) (rows : List Record) (i : Nat) (row : Record) : Option Ride :=
  if getField row "Operator" = "Metrobus" then
    some
      { peak := isPeak env (getField row "Time")
        type := "Metrobus"
        entry_location := fuzzyMatchStation env (getField row "Entry Location/ Bus Route")
        entry_time := some (env.newDate (getField row "Time")).getTime
        exit_location := ""
        exit_time := none
        regular_cost := 2.25 }
  else if getField row "Operator" = "Metrorail" ∧ getField row "Description" = "Exit" then
    let entryRow0 := if i + 1 < rows.length then rows.getD (i + 1) row else row
    let entryRow := if getField entryRow0 "Description" ≠ "Entry" then row else entryRow0
    let entryCode := fuzzyMatchStation env (getField row "Entry Location/ Bus Route")
    let exitCode := fuzzyMatchStation env (getField row "Exit Location")
    let peak := isPeak env (getField entryRow "Time")
    some
      { peak := peak
        type := "Metrorail"
        entry_location := entryCode
        entry_time := some (env.newDate (getField entryRow "Time")).getTime
        exit_location := exitCode
        exit_time := some (env.newDate (getField row "Time")).getTime
        regular_cost := getFare env entryCode exitCode peak }
  else none

/-- First loop of `createRides`: fold `rideOfRow` over the rows in order. -/
def createRidesRaw (env : Env) (rows : List Record) : List Ride :=
  rows.enum.filterMap (fun ir => rideOfRow env rows ir.1 ir.2)

/-- The replacement ride built on a qualifying Farragut transfer: the current
ride with the candidate's peak flag, entry station and entry time, and the
fare recomputed from (candidate entry, current exit, candidate peak). -/
def mergeRide (env : Env) (ride : Ride) (prevRide : Ride) : Ride :=
  { ride with
    peak := prevRide.peak
    entry_location := prevRide.entry_location
    entry_time := prevRide.entry_time
    regular_cost := getFare env prevRide.entry_location ride.exit_location prevRide.peak }

/-- The inner `for (let j = i + 1; ...)` scan of `createRides`: skip rides
that are not Metrorail, did not exit at a Farragut code, or lack an exit time
(`continue`); stop at the first remaining ride whose exit precedes the entry
by more than 30 minutes (`break`); collapse with the first ride exiting at the
opposite code (`splice` the candidate out and return the merged ride). -/
def scanTransfer (env : Env) (ride : Ride) (entryTime : ℚ) (opposite : String) :
    List Ride → Option (Ride × List Ride)
  | [] => none
  | prevRide :: rest =>
    -- the JS `continue` keeps `prevRide` in place and moves on
    if prevRide.type ≠ "Metrorail" ∨ ¬ isFarragutStation prevRide.exit_location ∨
        prevRide.exit_time = none then
      (scanTransfer env ride entryTime opposite rest).map (fun p => (p.1, prevRide :: p.2))
    else
      match prevRide.exit_time with
      | none =>  -- unreachable: the guard above excludes `none`
        (scanTransfer env ride entryTime opposite rest).map (fun p => (p.1, prevRide :: p.2))
      | some exitTime =>
        -- `timeDiff` in minutes, inlined
        if (entryTime - exitTime) / (1000 * 60) > 30 then none
        else if prevRide.exit_location = opposite then some (mergeRide env ride prevRide, rest)
        else (scanTransfer env ride entryTime opposite rest).map (fun p => (p.1, prevRide :: p.2))

/-- The outer Farragut loop of `createRides`, structurally recursive on a fuel
bound (the JS loop always terminates because each collapse strictly shrinks
the array; `fuel` is instantiated with the list's length, which suffices since
each step consumes at least the head). An eligible ride (Metrorail, entering
at a Farragut code, with an entry time) is either replaced by its merged ride
(its partner removed from the remaining sequence) or kept; every other ride is
kept as is. -/
def applyTransfersAux (env : Env) : Nat → List Ride → List Ride
  | _, [] => []
  | 0, l => l
  | fuel + 1, ride :: rest =>
    if ride.type = "Metrorail" ∧ isFarragutStation ride.entry_location ∧
        ride.entry_time ≠ none then
      match ride.entry_time with
      | some entryTime =>
        let opposite := if ride.entry_location = "A02" then "C03" else "A02"
        match scanTransfer env ride entryTime opposite rest with
        | some (merged, rest') => merged :: applyTransfersAux env fuel rest'
        | none => ride :: applyTransfersAux env fuel rest
      | none => ride :: applyTransfersAux env fuel rest  -- unreachable under the guard
    else ride :: applyTransfersAux env fuel rest

/-- Second phase of `createRides`: the Farragut Crossing transfer collapser. -/
def applyTransfers (env : Env) (rides : List Ride) : List Ride :=
  applyTransfersAux env rides.length rides

/-- `createRides`: build the raw rides from the rows, then apply the Farragut
transfer collapse. -/
def createRides (env : Env) (rows : List Record) : List Ride :=
  applyTransfers env (createRidesRaw env rows)

/-- The per-ride term of the `totalSpent` reduction:
`r.regular_cost > passLimit ? r.regular_cost - passLimit : 0`, where
`passLimit = none` models the JS `Infinity` used for an uncapped pass (every
comparison `cost > Infinity` is false). -/
def overage (cost : ℚ) (passLimit : Option ℚ) : ℚ :=
  match passLimit with
  | none => 0
  | some l => if cost > l then cost - l else 0

/-- The result record of `calculatePassSavings`. -/
structure SavingsResult where
  totalCost : ℚ
  totalSpent : ℚ
  savings : ℚ
  brokeEven : Bool
deriving DecidableEq

/-- The aggregation part of `calculatePassSavings`, factored over an already
constructed ride list: the two `reduce` folds, the absolute savings and the
break-even flag. -/
def calculatePassSavingsRides (rides : List Ride) (passCost : ℚ) (passLimit : Option ℚ) :
    SavingsResult :=
  let totalCost := rides.foldl (fun sum r => sum + r.regular_cost) 0
  let totalSpent := rides.foldl (fun sum r => sum + overage r.regular_cost passLimit) passCost
  let savings := totalCost - totalSpent
  { totalCost := totalCost
    totalSpent := totalSpent
    savings := |savings|
    brokeEven := decide (totalCost ≥ totalSpent) }

/-- `calculatePassSavings`: parse the CSV, build the rides, and aggregate. -/
def calculatePassSavings (env : Env) (csv : String) (passCost : ℚ) (passLimit : Option ℚ) :
    SavingsResult :=
  let rows := parseCSV csv
  let rides := createRides env rows
  calculatePassSavingsRides rides passCost passLimit

/-- Modelled from the spec: the `search` function of the `fast-fuzzy` npm
package is not part of this repository.  Per §4.2 the resolver runs a
"fuzzy best-match against the full set of canonical station names ... the
single best match above threshold is accepted"; an input that is itself a
canonical name matches itself with full similarity, above any threshold
(0.75–0.8), so it is returned as the single best match. -/
def exactFirstSearch (stationName : String) (stationNames : List String) : List String :=
  if stationName ∈ stationNames then [stationName] else []

/-- The collapse-partner condition exactly as claim C2 words it: a Metrorail
ride that "exited at the opposite designated code at most 30 minutes before
that entry".  Stated from the claim's words, to be compared with the
condition `scanTransfer` actually implements. -/
def QualifiesPerClaim (entryTime : ℚ) (opposite : String) (prevRide : Ride) : Prop :=
  prevRide.type = "Metrorail" ∧ prevRide.exit_location = opposite ∧
    ∃ exitTime : ℚ, prevRide.exit_time = some exitTime ∧
      0 ≤ entryTime - exitTime ∧ (entryTime - exitTime) / (1000 * 60) ≤ 30

/-- An environment whose tables are empty and whose date parser always
returns `d`; used to exercise the engine at concrete inputs. -/
def constEnv (d : JSDate) : Env :=
  { stations := []
    gateStationMapping := fun _ => none
    search := fun _ _ => []
    fares := fun _ => none
    newDate := fun _ => d }

/-- Concrete environment for the Farragut-transfer scenarios: one fare-table
entry for the pair `B35-B05`. -/
def farragutEnv : Env :=
  { stations := []
    gateStationMapping := fun _ => none
    search := fun _ _ => []
    fares := fun key => if key = "B35-B05" then some ⟨5, 3.85⟩ else none
    newDate := fun _ => ⟨2, 12, 0, 0⟩ }

/-- A Metrorail ride entering at Farragut North (`A02`) at epoch time 0. -/
def farCurrent : Ride :=
  { peak := true, type := "Metrorail", entry_location := "A02", entry_time := some 0,
    exit_location := "B05", exit_time := some 600000, regular_cost := 3 }

/-- A Metrorail ride that exited at `C03` 40 minutes before `farCurrent`'s
entry (too long ago: the scan stops when it meets it). -/
def farStale : Ride :=
  { peak := false, type := "Metrorail", entry_location := "K01", entry_time := some (-3000000),
    exit_location := "C03", exit_time := some (-2400000), regular_cost := 2 }

/-- A Metrorail ride that exited at `C03` 20 minutes before `farCurrent`'s
entry (a qualifying partner under the claim's wording). -/
def farFresh : Ride :=
  { peak := false, type := "Metrorail", entry_location := "K02", entry_time := some (-2000000),
    exit_location := "C03", exit_time := some (-1200000), regular_cost := 2 }

/-- A Metrorail ride that exited at `C03` 10 minutes AFTER `farCurrent`'s
entry (it did not exit before the entry at all). -/
def farLate : Ride :=
  { peak := false, type := "Metrorail", entry_location := "K03", entry_time := some 300000,
    exit_location := "C03", exit_time := some 600000, regular_cost := 2 }

/-- A Metrorail ride that exited at `C03` 29 minutes before `farCurrent`'s
entry, entering at `B35`. -/
def farCand29 : Ride :=
  { peak := false, type := "Metrorail", entry_location := "B35", entry_time := some (-3000000),
    exit_location := "C03", exit_time := some (-1740000), regular_cost := 2 }

/-- A Metrorail ride that exited at `C03` 31 minutes before `farCurrent`'s
entry, entering at `B35`. -/
def farCand31 : Ride :=
  { peak := false, type := "Metrorail", entry_location := "B35", entry_time := some (-3100000),
    exit_location := "C03", exit_time := some (-1860000), regular_cost := 2 }

/-- A tap record for a Metrobus boarding. -/
def busRow : Record :=
  [("Time", "06/03/25 8:15 AM"), ("Description", "Bus Boarding"), ("Operator", "Metrobus"),
   ("Entry Location/ Bus Route", "33"), ("Exit Location", "")]

/-- A tap record for a Metrorail exit. -/
def railExitRow : Record :=
  [("Time", "06/03/25 8:45 AM"), ("Description", "Exit"), ("Operator", "Metrorail"),
   ("Entry Location/ Bus Route", "Foggy Bottom"), ("Exit Location", "Metro Center")]

/-- A tap record for the matching Metrorail entry (the WMATA log is
reverse-chronological, so the entry row follows the exit row). -/
def railEntryRow : Record :=
  [("Time", "06/03/25 8:20 AM"), ("Description", "Entry"), ("Operator", "Metrorail"),
   ("Entry Location/ Bus Route", "Foggy Bottom"), ("Exit Location", "")]

/-- A tap record the engine produces no ride for. -/
def otherRow : Record :=
  [("Time", "06/03/25 8:00 AM"), ("Description", "Reload"), ("Operator", "CharmCard"),
   ("Entry Location/ Bus Route", ""), ("Exit Location", "")]

/-- Environment for the resolver idempotence witness: a two-station canonical
table and the spec-modelled exact-match search. -/
def resolverEnv : Env :=
  { stations := [("Farragut West", "C03"), ("Metro Center", "A01")]
    gateStationMapping := fun _ => none
    search := exactFirstSearch
    fares := fun _ => none
    newDate := fun _ => ⟨2, 12, 0, 0⟩ }

/-- The entry reference exactly as claim C6 words it: the adjacent tap record
in log order when that record's description is `Entry`, and the exit record
itself otherwise. -/
def entryRefClaim (rows : List Record) (i : Nat) (row : Record) : Record :=
  if i + 1 < rows.length ∧ getField (rows.getD (i + 1) row) "Description" = "Entry"
  then rows.getD (i + 1) row else row

/-! ## Helper lemmas -/

theorem foldl_add_map_sum (f : Ride → ℚ) (l : List Ride) :
    ∀ a : ℚ, l.foldl (fun sum r => sum + f r) a = a + (l.map f).sum := by
  induction l with
  | nil => intro a; simp
  | cons r t ih => intro a; simp [ih, add_assoc]

theorem overage_some (cost limit : ℚ) : overage cost (some limit) = max 0 (cost - limit) := by
  simp only [overage]
  rcases le_or_lt cost limit with h | h
  · rw [if_neg (not_lt.mpr h)]
    exact (max_eq_left (by linarith)).symm
  · rw [if_pos h]
    exact (max_eq_right (by linarith)).symm

theorem overage_nonneg (cost : ℚ) (passLimit : Option ℚ) : 0 ≤ overage cost passLimit := by
  cases passLimit with
  | none => simp [overage]
  | some limit =>
    rw [overage_some]
    exact le_max_left _ _

theorem calculatePassSavingsRides_totalCost (rides : List Ride) (p : ℚ) (pl : Option ℚ) :
    (calculatePassSavingsRides rides p pl).totalCost = (rides.map Ride.regular_cost).sum := by
  simpa [calculatePassSavingsRides] using foldl_add_map_sum Ride.regular_cost rides 0

theorem calculatePassSavingsRides_totalSpent (rides : List Ride) (p : ℚ) (pl : Option ℚ) :
    (calculatePassSavingsRides rides p pl).totalSpent
      = p + (rides.map fun r => overage r.regular_cost pl).sum := by
  simpa [calculatePassSavingsRides] using
    foldl_add_map_sum (fun r => overage r.regular_cost pl) rides p

/-! ## Claim theorems -/

/-- C4: `calculatePassSavings` returns `totalCost` equal to the sum of every
ride's fare and `totalSpent` equal to the pass price plus the per-ride
overage sum Σ max(0, fare − fareLimit); with an uncapped fare limit (JS
`Infinity`, modelled as `none`) the overage sum is zero, so `totalSpent` is
exactly the pass price. -/
theorem calculatePassSavings_totals :
    (∀ (env : Env) (csv : String) (passCost limit : ℚ),
      (calculatePassSavings env csv passCost (some limit)).totalCost
        = ((createRides env (parseCSV csv)).map Ride.regular_cost).sum ∧
      (calculatePassSavings env csv passCost (some limit)).totalSpent
        = passCost + ((createRides env (parseCSV csv)).map
            (fun r => max 0 (r.regular_cost - limit))).sum) ∧
    ∀ (env : Env) (csv : String) (passCost : ℚ),
      (calculatePassSavings env csv passCost none).totalCost
        = ((createRides env (parseCSV csv)).map Ride.regular_cost).sum ∧
      (calculatePassSavings env csv passCost none).totalSpent = passCost := by
  constructor
  · intro env csv passCost limit
    constructor
    · exact calculatePassSavingsRides_totalCost _ _ _
    · show (calculatePassSavingsRides (createRides env (parseCSV csv)) passCost
          (some limit)).totalSpent = _
      rw [calculatePassSavingsRides_totalSpent]
      simp [overage_some]
  · intro env csv passCost
    refine ⟨calculatePassSavingsRides_totalCost _ _ _, ?_⟩
    show (calculatePassSavingsRides (createRides env (parseCSV csv)) passCost none).totalSpent = _
    rw [calculatePassSavingsRides_totalSpent]
    simp [overage]

/-- C10: buying the pass never reduces `totalSpent` below the pass price:
every per-ride overage contribution is non-negative, and it is positive
exactly when the ride's fare strictly exceeds the fare limit. -/
theorem totalSpent_ge_passCost :
    (∀ (env : Env) (csv : String) (passCost : ℚ) (passLimit : Option ℚ),
      passCost ≤ (calculatePassSavings env csv passCost passLimit).totalSpent) ∧
    (∀ (cost : ℚ) (passLimit : Option ℚ), 0 ≤ overage cost passLimit) ∧
    ∀ cost limit : ℚ, 0 < overage cost (some limit) ↔ limit < cost := by
  refine ⟨?_, overage_nonneg, ?_⟩
  · intro env csv passCost passLimit
    show passCost ≤ (calculatePassSavingsRides (createRides env (parseCSV csv))
      passCost passLimit).totalSpent
    rw [calculatePassSavingsRides_totalSpent]
    have h : 0 ≤ ((createRides env (parseCSV csv)).map
        fun r => overage r.regular_cost passLimit).sum := by
      refine List.sum_nonneg ?_
      intro x hx
      obtain ⟨r, -, rfl⟩ := List.mem_map.mp hx
      exact overage_nonneg _ _
    linarith
  · intro cost limit
    rw [overage_some]
    constructor
    · intro h
      by_contra hc
      push_neg at hc
      rw [max_eq_left (by linarith)] at h
      exact lt_irrefl 0 h
    · intro h
      rw [max_eq_right (by linarith)]
      linarith

/-- C5: `brokeEven` is true exactly when `totalCost ≥ totalSpent`, `savings`
is the absolute difference of the two totals (hence non-negative), and in the
boundary case `totalCost = totalSpent` the result has `brokeEven` true and
zero savings.  The first conjunct records that every result of
`calculatePassSavings` is a result of the aggregation
`calculatePassSavingsRides`, over which the properties are proved. -/
theorem brokeEven_savings_spec :
    (∀ (env : Env) (csv : String) (passCost : ℚ) (passLimit : Option ℚ),
      calculatePassSavings env csv passCost passLimit
        = calculatePassSavingsRides (createRides env (parseCSV csv)) passCost passLimit) ∧
    ∀ (rides : List Ride) (passCost : ℚ) (passLimit : Option ℚ),
      ((calculatePassSavingsRides rides passCost passLimit).brokeEven = true ↔
        (calculatePassSavingsRides rides passCost passLimit).totalSpent ≤
          (calculatePassSavingsRides rides passCost passLimit).totalCost) ∧
      (calculatePassSavingsRides rides passCost passLimit).savings =
        |(calculatePassSavingsRides rides passCost passLimit).totalCost -
          (calculatePassSavingsRides rides passCost passLimit).totalSpent| ∧
      0 ≤ (calculatePassSavingsRides rides passCost passLimit).savings ∧
      ((calculatePassSavingsRides rides passCost passLimit).totalCost =
          (calculatePassSavingsRides rides passCost passLimit).totalSpent →
        (calculatePassSavingsRides rides passCost passLimit).brokeEven = true ∧
        (calculatePassSavingsRides rides passCost passLimit).savings = 0) := by
  refine ⟨fun env csv p pl => rfl, ?_⟩
  intro rides passCost passLimit
  simp only [calculatePassSavingsRides]
  refine ⟨by rw [decide_eq_true_iff, ge_iff_le], trivial, abs_nonneg _, ?_⟩
  intro h
  rw [h]
  simp

/-- Witness for C5 at the boundary input: an empty ride list and a zero pass
price give `totalCost = totalSpent`, so `brokeEven` holds with zero savings. -/
theorem brokeEven_savings_witness :
    (calculatePassSavingsRides [] 0 none).brokeEven = true ∧
    (calculatePassSavingsRides [] 0 none).savings = 0 :=
  (brokeEven_savings_spec.2 [] 0 none).2.2.2 (by norm_num [calculatePassSavingsRides])

/-- C8: an input log yielding zero qualifying rides gives `totalCost` 0,
`totalSpent` equal to the pass price, `savings` equal to the pass price, and
`brokeEven` exactly when the pass price is 0.  The first conjunct records
that `calculatePassSavings` is the aggregation of `createRides` over the
parsed log. -/
theorem calculatePassSavings_no_rides :
    (∀ (env : Env) (csv : String) (passCost : ℚ) (passLimit : Option ℚ),
      calculatePassSavings env csv passCost passLimit
        = calculatePassSavingsRides (createRides env (parseCSV csv)) passCost passLimit) ∧
    ∀ (env : Env) (rows : List Record) (passCost : ℚ) (passLimit : Option ℚ),
      createRides env rows = [] → 0 ≤ passCost →
      (calculatePassSavingsRides (createRides env rows) passCost passLimit).totalCost = 0 ∧
      (calculatePassSavingsRides (createRides env rows) passCost passLimit).totalSpent
        = passCost ∧
      (calculatePassSavingsRides (createRides env rows) passCost passLimit).savings
        = passCost ∧
      ((calculatePassSavingsRides (createRides env rows) passCost passLimit).brokeEven = true ↔
        passCost = 0) := by
  refine ⟨fun env csv p pl => rfl, ?_⟩
  intro env rows passCost passLimit h hp
  rw [h]
  simp only [calculatePassSavingsRides, List.foldl_nil]
  refine ⟨trivial, trivial, ?_, ?_⟩
  · rw [zero_sub, abs_neg, abs_of_nonneg hp]
  · rw [decide_eq_true_iff, ge_iff_le]
    constructor
    · intro h2
      exact le_antisymm h2 hp
    · intro h2
      rw [h2]

/-- Witness for C8: a log with one non-qualifying row (a card reload) and a
pass price of 2 gives totals 0 and 2, savings 2, and no break-even. -/
theorem calculatePassSavings_no_rides_witness :
    (calculatePassSavingsRides (createRides (constEnv ⟨2, 12, 0, 0⟩) [otherRow])
      2 none).totalCost = 0 ∧
    (calculatePassSavingsRides (createRides (constEnv ⟨2, 12, 0, 0⟩) [otherRow])
      2 none).totalSpent = 2 ∧
    (calculatePassSavingsRides (createRides (constEnv ⟨2, 12, 0, 0⟩) [otherRow])
      2 none).savings = 2 ∧
    ((calculatePassSavingsRides (createRides (constEnv ⟨2, 12, 0, 0⟩) [otherRow])
      2 none).brokeEven = true ↔ (2 : ℚ) = 0) :=
  calculatePassSavings_no_rides.2 (constEnv ⟨2, 12, 0, 0⟩) [otherRow] 2 none
    (by norm_num [createRides, createRidesRaw, applyTransfers, applyTransfersAux,
      rideOfRow, getField, List.lookup, otherRow])
    (by norm_num)

/-- C1 (code bug): the `isPeak` of `src/unnamed/part_000` realizes the claimed
weekday-[05:00, 21:30) window exactly at every boundary, but the `isPeak` of
`src/src/lib/calculator.ts` (here `Lib.isPeak`) classifies a Tuesday 04:59 and
a Tuesday 21:30 as peak, because its condition `hour >= 5 || hour < 21 ||
(hour === 21 && minute < 30)` is true at every weekday hour — contradicting
the claim and that function's own comment. -/
theorem isPeak_boundary_bug :
    isPeak (constEnv ⟨2, 4, 59, 0⟩) "" = false ∧
    Lib.isPeak (constEnv ⟨2, 4, 59, 0⟩) "" = true ∧
    isPeak (constEnv ⟨2, 5, 0, 0⟩) "" = true ∧
    isPeak (constEnv ⟨2, 21, 29, 0⟩) "" = true ∧
    isPeak (constEnv ⟨2, 21, 30, 0⟩) "" = false ∧
    Lib.isPeak (constEnv ⟨2, 21, 30, 0⟩) "" = true ∧
    isPeak (constEnv ⟨6, 12, 0, 0⟩) "" = false ∧
    isPeak (constEnv ⟨0, 12, 0, 0⟩) "" = false ∧
    Lib.isPeak (constEnv ⟨6, 12, 0, 0⟩) "" = false := by
  decide

/-- C7: a Metrobus tap yields exactly one standalone ride: entry code equal
to the resolved raw entry text, empty exit location, no exit time, the flat
fare 2.25, and a peak flag computed from that tap's own timestamp. -/
theorem rideOfRow_metrobus (env : Env) (rows : List Record) (i : Nat) (row : Record)
    (hop : getField row "Operator" = "Metrobus") :
    rideOfRow env rows i row =
      some { peak := isPeak env (getField row "Time")
             type := "Metrobus"
             entry_location := fuzzyMatchStation env (getField row "Entry Location/ Bus Route")
             entry_time := some (env.newDate (getField row "Time")).getTime
             exit_location := ""
             exit_time := none
             regular_cost := 2.25 } := by
  simp [rideOfRow, hop]

/-- Witness for C7: the concrete Metrobus tap `busRow` in a concrete
environment. -/
theorem rideOfRow_metrobus_witness :
    rideOfRow (constEnv ⟨2, 8, 15, 55⟩) [busRow] 0 busRow =
      some { peak := true, type := "Metrobus", entry_location := "",
             entry_time := some 55, exit_location := "", exit_time := none,
             regular_cost := 2.25 } := by
  rw [rideOfRow_metrobus (constEnv ⟨2, 8, 15, 55⟩) [busRow] 0 busRow (by decide)]
  norm_num [constEnv, isPeak, fuzzyMatchStation, getField, List.lookup, busRow]

theorem lookup_some_mem_map_fst {β : Type} (a : String) (b : β) :
    ∀ l : List (String × β), l.lookup a = some b → a ∈ l.map Prod.fst := by
  intro l
  induction l with
  | nil => intro h; simp [List.lookup] at h
  | cons hd tl ih =>
    obtain ⟨k, v⟩ := hd
    intro h
    rw [List.lookup] at h
    rcases hkey : a == k with _ | _
    · rw [hkey] at h
      exact List.mem_cons_of_mem _ (ih h)
    · have : a = k := eq_of_beq hkey
      simp [this]

/-- C6: a Metrorail tap whose description is `Exit` yields a ride whose entry
reference is the adjacent record in log order when that record is an `Entry`,
and the exit record itself otherwise; the ride's peak flag and entry time are
computed from that entry reference's timestamp (`entryRefClaim` states the
reference exactly as the claim words it), while the exit time comes from the
exit record. -/
theorem rideOfRow_exit_entry_reference (env : Env) (rows : List Record) (i : Nat) (row : Record)
    (hop : getField row "Operator" = "Metrorail")
    (hdesc : getField row "Description" = "Exit") :
    rideOfRow env rows i row =
      some { peak := isPeak env (getField (entryRefClaim rows i row) "Time")
             type := "Metrorail"
             entry_location := fuzzyMatchStation env (getField row "Entry Location/ Bus Route")
             entry_time :=
               some (env.newDate (getField (entryRefClaim rows i row) "Time")).getTime
             exit_location := fuzzyMatchStation env (getField row "Exit Location")
             exit_time := some (env.newDate (getField row "Time")).getTime
             regular_cost :=
               getFare env (fuzzyMatchStation env (getField row "Entry Location/ Bus Route"))
                 (fuzzyMatchStation env (getField row "Exit Location"))
                 (isPeak env (getField (entryRefClaim rows i row) "Time")) } := by
  have hops : ¬ getField row "Operator" = "Metrobus" := by rw [hop]; decide
  have hrw :
      (if getField (if i + 1 < rows.length then rows.getD (i + 1) row else row)
          "Description" ≠ "Entry"
        then row else if i + 1 < rows.length then rows.getD (i + 1) row else row)
        = entryRefClaim rows i row := by
    by_cases hlt : i + 1 < rows.length
    · by_cases hE : getField (rows.getD (i + 1) row) "Description" = "Entry"
      · simp [entryRefClaim, hlt, hE]
      · simp [entryRefClaim, hlt, hE]
    · simp [entryRefClaim, hlt, hdesc]
  rw [rideOfRow, if_neg hops, if_pos (⟨hop, hdesc⟩ :
    getField row "Operator" = "Metrorail" ∧ getField row "Description" = "Exit")]
  simp only [hrw]

/-- Witness for C6: the concrete Metrorail exit tap `railExitRow` followed by
its matching `railEntryRow`. -/
theorem rideOfRow_exit_witness :
    rideOfRow (constEnv ⟨2, 8, 45, 99⟩) [railExitRow, railEntryRow] 0 railExitRow =
      some { peak := isPeak (constEnv ⟨2, 8, 45, 99⟩)
               (getField (entryRefClaim [railExitRow, railEntryRow] 0 railExitRow) "Time")
             type := "Metrorail"
             entry_location := fuzzyMatchStation (constEnv ⟨2, 8, 45, 99⟩)
               (getField railExitRow "Entry Location/ Bus Route")
             entry_time := some ((constEnv ⟨2, 8, 45, 99⟩).newDate
               (getField (entryRefClaim [railExitRow, railEntryRow] 0 railExitRow)
                 "Time")).getTime
             exit_location := fuzzyMatchStation (constEnv ⟨2, 8, 45, 99⟩)
               (getField railExitRow "Exit Location")
             exit_time := some ((constEnv ⟨2, 8, 45, 99⟩).newDate
               (getField railExitRow "Time")).getTime
             regular_cost := getFare (constEnv ⟨2, 8, 45, 99⟩)
               (fuzzyMatchStation (constEnv ⟨2, 8, 45, 99⟩)
                 (getField railExitRow "Entry Location/ Bus Route"))
               (fuzzyMatchStation (constEnv ⟨2, 8, 45, 99⟩)
                 (getField railExitRow "Exit Location"))
               (isPeak (constEnv ⟨2, 8, 45, 99⟩)
                 (getField (entryRefClaim [railExitRow, railEntryRow] 0 railExitRow)
                   "Time")) } :=
  rideOfRow_exit_entry_reference (constEnv ⟨2, 8, 45, 99⟩) [railExitRow, railEntryRow] 0
    railExitRow (by decide) (by decide)

/-- C9: the Station Resolver is idempotent on canonical names: resolving a
name that appears as a key of the canonical station table returns that
station's own code.  The fuzzy `search` is the spec-modelled
`exactFirstSearch` (the `fast-fuzzy` dependency is not part of this
repository), and the gate-alias table is assumed not to shadow the canonical
name with a different target. -/
theorem fuzzyMatchStation_idempotent (env : Env) (stationName code : String)
    (hsearch : env.search = exactFirstSearch)
    (hgate : env.gateStationMapping stationName = none ∨
      env.gateStationMapping stationName = some stationName)
    (hname : stationName ≠ "")
    (hlookup : env.stations.lookup stationName = some code) :
    fuzzyMatchStation env stationName = code := by
  rcases hgate with hg | hg
  · simp only [fuzzyMatchStation, if_neg hname, hg, Option.getD_none, ne_eq,
      eq_self_iff_true, not_true, if_false, hsearch, exactFirstSearch,
      if_pos (lookup_some_mem_map_fst _ _ _ hlookup), hlookup, Option.getD_some]
  · simp only [fuzzyMatchStation, if_neg hname, hg, Option.getD_some, ne_eq,
      if_pos hname, hlookup]

/-- Witness for C9: resolving the canonical name of Farragut West in a
concrete two-station table returns its own code. -/
theorem fuzzyMatchStation_idempotent_witness :
    fuzzyMatchStation resolverEnv "Farragut West" = "C03" :=
  fuzzyMatchStation_idempotent resolverEnv "Farragut West" "C03" rfl (Or.inl rfl)
    (by decide) (by decide)

/-- Soundness of the inner transfer scan: whenever it returns a merged ride,
the merged ride is `mergeRide` of the current ride with some candidate from
the remaining sequence that is Metrorail, exited at the opposite designated
code within the 30-minute bound, and the returned remainder is the remaining
sequence with exactly that candidate removed. -/
theorem scanTransfer_sound (env : Env) (ride : Ride) (entryTime : ℚ) (opposite : String) :
    ∀ (rest : List Ride) (merged : Ride) (rest' : List Ride),
      scanTransfer env ride entryTime opposite rest = some (merged, rest') →
      ∃ prev : Ride, prev ∈ rest ∧
        prev.type = "Metrorail" ∧ isFarragutStation prev.exit_location = true ∧
        prev.exit_location = opposite ∧
        (∃ exitTime : ℚ, prev.exit_time = some exitTime ∧
          (entryTime - exitTime) / (1000 * 60) ≤ 30) ∧
        merged = mergeRide env ride prev ∧
        (rest : Multiset Ride) = prev ::ₘ (rest' : Multiset Ride) := by
  intro rest
  induction rest with
  | nil =>
    intro merged rest' h
    simp [scanTransfer] at h
  | cons prevRide tail ih =>
    intro merged rest' h
    rw [scanTransfer] at h
    by_cases hskip : prevRide.type ≠ "Metrorail" ∨ ¬ isFarragutStation prevRide.exit_location ∨
        prevRide.exit_time = none
    · rw [if_pos hskip] at h
      cases hrec : scanTransfer env ride entryTime opposite tail with
      | none => rw [hrec] at h; simp at h
      | some p =>
        obtain ⟨m0, l0⟩ := p
        rw [hrec] at h
        simp only [Option.map_some'] at h
        rw [Option.some.injEq, Prod.mk.injEq] at h
        obtain ⟨hm, hl⟩ := h
        obtain ⟨prev, hmem, ht, hfar, hopp, hex, hmerged, hms⟩ := ih m0 l0 hrec
        refine ⟨prev, List.mem_cons_of_mem _ hmem, ht, hfar, hopp, hex, hm ▸ hmerged, ?_⟩
        rw [← hl, ← Multiset.cons_coe, ← Multiset.cons_coe, hms, Multiset.cons_swap]
    · rw [if_neg hskip] at h
      push_neg at hskip
      obtain ⟨ht, hfar, hne⟩ := hskip
      rcases hexval : prevRide.exit_time with _ | exitTime
      · exact absurd hexval hne
      · rw [hexval] at h
        simp only [] at h
        by_cases hdiff : (entryTime - exitTime) / (1000 * 60) > 30
        · rw [if_pos hdiff] at h
          simp at h
        · rw [if_neg hdiff] at h
          by_cases hopp : prevRide.exit_location = opposite
          · rw [if_pos hopp] at h
            rw [Option.some.injEq, Prod.mk.injEq] at h
            obtain ⟨hm, hl⟩ := h
            refine ⟨prevRide, List.mem_cons_self _ _, ht, hfar, hopp,
              ⟨exitTime, hexval, not_lt.mp hdiff⟩, hm.symm, ?_⟩
            rw [← hl, Multiset.cons_coe]
          · rw [if_neg hopp] at h
            cases hrec : scanTransfer env ride entryTime opposite tail with
            | none => rw [hrec] at h; simp at h
            | some p =>
              obtain ⟨m0, l0⟩ := p
              rw [hrec] at h
              simp only [Option.map_some'] at h
              rw [Option.some.injEq, Prod.mk.injEq] at h
              obtain ⟨hm, hl⟩ := h
              obtain ⟨prev, hmem, ht', hfar', hopp', hex', hmerged', hms'⟩ := ih m0 l0 hrec
              refine ⟨prev, List.mem_cons_of_mem _ hmem, ht', hfar', hopp',
                hex', hm ▸ hmerged', ?_⟩
              rw [← hl, ← Multiset.cons_coe, ← Multiset.cons_coe, hms', Multiset.cons_swap]

/-- Partition property of the fuelled Farragut loop: the input multiset splits
into rides passed through unchanged plus (survivor, partner) pairs, and the
output multiset is the unchanged rides plus one merged ride per pair. -/
theorem applyTransfersAux_partition (env : Env) :
    ∀ (fuel : Nat) (l : List Ride), l.length ≤ fuel →
      ∃ (unchanged : List Ride) (pairs : List (Ride × Ride)),
        (l : Multiset Ride) = (unchanged : Multiset Ride)
          + ((pairs.map Prod.fst : List Ride) : Multiset Ride)
          + ((pairs.map Prod.snd : List Ride) : Multiset Ride) ∧
        ((applyTransfersAux env fuel l : List Ride) : Multiset Ride)
          = (unchanged : Multiset Ride)
            + ((pairs.map fun pr => mergeRide env pr.1 pr.2 : List Ride) : Multiset Ride) := by
  intro fuel
  induction fuel with
  | zero =>
    intro l hl
    have hnil : l = [] := List.eq_nil_of_length_eq_zero (Nat.le_zero.mp hl)
    subst hnil
    exact ⟨[], [], by simp, by simp [applyTransfersAux]⟩
  | succ fuel ih =>
    intro l hl
    rcases l with _ | ⟨ride, rest⟩
    · exact ⟨[], [], by simp, by simp [applyTransfersAux]⟩
    rw [applyTransfersAux]
    by_cases helig : ride.type = "Metrorail" ∧ isFarragutStation ride.entry_location ∧
        ride.entry_time ≠ none
    · rw [if_pos helig]
      obtain ⟨-, -, hne⟩ := helig
      rcases het : ride.entry_time with _ | entryTime
      · exact absurd het hne
      simp only []
      cases hscan : scanTransfer env ride entryTime
          (if ride.entry_location = "A02" then "C03" else "A02") rest with
      | none =>
        simp only []
        obtain ⟨u, p, h1, h2⟩ := ih rest (Nat.succ_le_succ_iff.mp (by simpa using hl))
        refine ⟨ride :: u, p, ?_, ?_⟩
        · simp only [← Multiset.cons_coe, h1, ← Multiset.singleton_add]
          abel
        · simp only [← Multiset.cons_coe, h2, ← Multiset.singleton_add]
          abel
      | some pr =>
        obtain ⟨merged, rest'⟩ := pr
        simp only []
        obtain ⟨prev, hmem, -, -, -, -, hmerged, hms⟩ :=
          scanTransfer_sound env ride entryTime _ rest merged rest' hscan
        have hcard : rest.length = rest'.length + 1 := by
          have := congrArg Multiset.card hms
          simpa [Multiset.coe_card] using this
        have hlen : rest'.length ≤ fuel := by
          have hl' : rest.length ≤ fuel := Nat.succ_le_succ_iff.mp (by simpa using hl)
          omega
        obtain ⟨u, p, h1, h2⟩ := ih rest' hlen
        refine ⟨u, (ride, prev) :: p, ?_, ?_⟩
        · simp only [List.map_cons, ← Multiset.cons_coe, hms, h1, ← Multiset.singleton_add]
          abel
        · simp only [List.map_cons, ← Multiset.cons_coe, hms, h2, hmerged,
            ← Multiset.singleton_add]
          abel
    · rw [if_neg helig]
      obtain ⟨u, p, h1, h2⟩ := ih rest (Nat.succ_le_succ_iff.mp (by simpa using hl))
      refine ⟨ride :: u, p, ?_, ?_⟩
      · simp only [← Multiset.cons_coe, h1, ← Multiset.singleton_add]
        abel
      · simp only [← Multiset.cons_coe, h2, ← Multiset.singleton_add]
        abel

/-- C3: the Transfer Collapser's output is an exact one-pass partition of its
input: every input ride is either emitted unchanged, emitted as a collapse
survivor (replaced by the merged ride of a (survivor, partner) pair), or
consumed as a collapse partner; consumed rides are never separately emitted
and each ride takes part in at most one collapse. -/
theorem applyTransfers_partition (env : Env) (rides : List Ride) :
    ∃ (unchanged : List Ride) (pairs : List (Ride × Ride)),
      (rides : Multiset Ride) = (unchanged : Multiset Ride)
        + ((pairs.map Prod.fst : List Ride) : Multiset Ride)
        + ((pairs.map Prod.snd : List Ride) : Multiset Ride) ∧
      ((applyTransfers env rides : List Ride) : Multiset Ride)
        = (unchanged : Multiset Ride)
          + ((pairs.map fun pr => mergeRide env pr.1 pr.2 : List Ride) : Multiset Ride) :=
  applyTransfersAux_partition env rides.length rides le_rfl

/-- C2 counterexample.  First scenario: `farCurrent` enters at `A02` and the
later-scanned `farFresh` exited at `C03` only 20 minutes earlier — the claim
demands a collapse with it (`farStale`, scanned first, does not qualify at 40
minutes) — yet the code emits all three rides unchanged, because the scan
stops at `farStale` (`timeDiff > 30` is treated as a terminator, not a skip).
Second scenario: the code collapses `farCurrent` with `farLate`, which exited
10 minutes AFTER the entry and so is not a candidate that "exited at most 30
minutes before that entry" (the code checks no lower bound). -/
theorem applyTransfers_claim_counterexample :
    (applyTransfers farragutEnv [farCurrent, farStale, farFresh]
        = [farCurrent, farStale, farFresh] ∧
      farCurrent.type = "Metrorail" ∧ farCurrent.entry_location = "A02" ∧
      farCurrent.entry_time = some 0 ∧
      QualifiesPerClaim 0 "C03" farFresh ∧ ¬ QualifiesPerClaim 0 "C03" farStale) ∧
    (applyTransfers farragutEnv [farCurrent, farLate]
        = [mergeRide farragutEnv farCurrent farLate] ∧
      mergeRide farragutEnv farCurrent farLate ≠ farCurrent ∧
      ¬ QualifiesPerClaim 0 "C03" farLate) := by
  refine ⟨⟨?_, rfl, rfl, rfl, ?_, ?_⟩, ?_, ?_, ?_⟩
  · norm_num +decide [applyTransfers, applyTransfersAux, scanTransfer, isFarragutStation,
      farragutEnv, farCurrent, farStale, farFresh, Option.some_ne_none]
  · exact ⟨rfl, rfl, -1200000, rfl, by norm_num, by norm_num⟩
  · rintro ⟨-, -, e, he, h0, h30⟩
    rw [show farStale.exit_time = some (-2400000) from rfl, Option.some.injEq] at he
    subst he
    norm_num at h30
  · norm_num +decide [applyTransfers, applyTransfersAux, scanTransfer, mergeRide, isFarragutStation,
      getFare, farragutEnv, farCurrent, farLate, Option.some_ne_none]
  · intro hc
    have hloc := congrArg Ride.entry_location hc
    rw [show (mergeRide farragutEnv farCurrent farLate).entry_location = "K03" from rfl,
      show farCurrent.entry_location = "A02" from rfl] at hloc
    exact absurd hloc (by decide)
  · rintro ⟨-, -, e, he, h0, h30⟩
    rw [show farLate.exit_time = some 600000 from rfl, Option.some.injEq] at he
    subst he
    norm_num at h0

/-- C2 (amended): whenever the transfer scan collapses, the matched candidate
is a Metrorail ride from the remaining sequence that exited at the opposite
designated code with exit-to-entry difference at most 30 minutes (no lower
bound), and the replacement ride carries the candidate's entry station, entry
timestamp and peak flag, keeps the current ride's exit station and exit time,
and has its fare recomputed from (candidate entry code, current exit code,
candidate peak flag); the scan takes the first candidate it reaches, stopping
at the first Farragut-exit Metrorail ride older than 30 minutes.  The
concrete conjuncts check the claimed 29-minute (collapse) and 31-minute (no
collapse) boundaries. -/
theorem scanTransfer_collapse :
    (∀ (env : Env) (ride : Ride) (entryTime : ℚ) (opposite : String)
        (rest : List Ride) (merged : Ride) (rest' : List Ride),
      scanTransfer env ride entryTime opposite rest = some (merged, rest') →
      ∃ prev : Ride, prev ∈ rest ∧ prev.type = "Metrorail" ∧
        prev.exit_location = opposite ∧
        (∃ exitTime : ℚ, prev.exit_time = some exitTime ∧
          (entryTime - exitTime) / (1000 * 60) ≤ 30) ∧
        merged.peak = prev.peak ∧ merged.entry_location = prev.entry_location ∧
        merged.entry_time = prev.entry_time ∧ merged.type = ride.type ∧
        merged.exit_location = ride.exit_location ∧ merged.exit_time = ride.exit_time ∧
        merged.regular_cost
          = getFare env prev.entry_location ride.exit_location prev.peak) ∧
    applyTransfers farragutEnv [farCurrent, farCand29]
        = [mergeRide farragutEnv farCurrent farCand29] ∧
    applyTransfers farragutEnv [farCurrent, farCand31] = [farCurrent, farCand31] := by
  refine ⟨?_, ?_, ?_⟩
  · intro env ride entryTime opposite rest merged rest' h
    obtain ⟨prev, hmem, ht, -, hopp, hex, hmerged, -⟩ :=
      scanTransfer_sound env ride entryTime opposite rest merged rest' h
    subst hmerged
    exact ⟨prev, hmem, ht, hopp, hex, rfl, rfl, rfl, rfl, rfl, rfl, rfl⟩
  · norm_num +decide [applyTransfers, applyTransfersAux, scanTransfer, mergeRide, isFarragutStation,
      getFare, farragutEnv, farCurrent, farCand29, Option.some_ne_none]
  · norm_num +decide [applyTransfers, applyTransfersAux, scanTransfer, mergeRide, isFarragutStation,
      getFare, farragutEnv, farCurrent, farCand31, Option.some_ne_none]

/-- Witness for C2 (amended): the 29-minute candidate `farCand29` matched
against `farCurrent`, with every carried field checked. -/
theorem scanTransfer_collapse_witness :
    ∃ prev : Ride, prev ∈ [farCand29] ∧ prev.type = "Metrorail" ∧
      prev.exit_location = "C03" ∧
      (∃ exitTime : ℚ, prev.exit_time = some exitTime ∧
        ((0 : ℚ) - exitTime) / (1000 * 60) ≤ 30) ∧
      (mergeRide farragutEnv farCurrent farCand29).peak = prev.peak ∧
      (mergeRide farragutEnv farCurrent farCand29).entry_location = prev.entry_location ∧
      (mergeRide farragutEnv farCurrent farCand29).entry_time = prev.entry_time ∧
      (mergeRide farragutEnv farCurrent farCand29).type = farCurrent.type ∧
      (mergeRide farragutEnv farCurrent farCand29).exit_location = farCurrent.exit_location ∧
      (mergeRide farragutEnv farCurrent farCand29).exit_time = farCurrent.exit_time ∧
      (mergeRide farragutEnv farCurrent farCand29).regular_cost
        = getFare farragutEnv prev.entry_location farCurrent.exit_location prev.peak :=
  scanTransfer_collapse.1 farragutEnv farCurrent 0 "C03" [farCand29]
    (mergeRide farragutEnv farCurrent farCand29) []
    (by norm_num +decide [scanTransfer, mergeRide, isFarragutStation, getFare, farragutEnv,
      farCurrent, farCand29, Option.some_ne_none])
